import Mathlib

/-!
# Verification of the newserv session layer and subcommand router

This development shallowly embeds the parts of the repository that the
specification's claims are about:

* `Channel::send` and `Channel::recv` from `src/Channel.cc` (framing,
  padding, the outbound size limit, and inbound cipher advancement);
* the in-game subcommand handlers from `src/ItemData.hh`
  (`on_pick_up_item_generic`, `on_entity_drop_item_request`,
  `on_drop_partial_stack_bb`, `on_destroy_inventory_item`,
  `on_sync_joining_player_disp_and_inventory`, `forward_subcommand`).

Machine integers are modelled as `Nat`; byte buffers as `List Nat`.
Definitions whose bodies are not part of the studied sources (the
`PSOCommandHeader` structs, the `Lobby` and player-inventory methods, the
version-generation predicates) are modelled from the specification and are
marked `Modelled from the spec:` in their doc comments.
-/

namespace Newserv

/-- The game versions handled by `Channel::send` in `src/Channel.cc`
(`GameVersion` in the source). -/
inductive GameVersion
  | DC
  | GC
  | PC
  | PATCH
  | BB
deriving DecidableEq, Repr

/-- `(n + 3) & ~3` on non-negative integers: round up to a multiple of 4. -/
def align4 (n : Nat) : Nat := (n + 3) / 4 * 4

/-- `(n + 7) & ~7` on non-negative integers: round up to a multiple of 8. -/
def align8 (n : Nat) : Nat := (n + 7) / 8 * 8

/-- Header size used by `Channel::recv`: 8 bytes on BB (v4), 4 elsewhere. -/
def headerSize : GameVersion → Nat
  | .BB => 8
  | _ => 4

/-- The three sizes computed by `Channel::send` for one outbound command:
the number of bytes actually transmitted (`send_data_size` in the source),
the value written into the header's size field, and the `logical_size`
local variable. -/
structure SendFrame where
  txLen : Nat
  sizeField : Nat
  logicalSize : Nat
deriving DecidableEq, Repr

/-- The `switch (this->version)` in `Channel::send` (`src/Channel.cc`):

* DC/GC and PC/PATCH: `send_data_size = (4 + size + 3) & ~3` when
  `crypt_out` is set, `4 + size` otherwise; `logical_size = send_data_size`
  and `header.size = send_data_size`.
* BB: `send_data_size = (8 + size + 7) & ~7` when `crypt_out` is set,
  `8 + size` otherwise; `logical_size = (8 + size + 3) & ~3` and
  `header.size = logical_size`. -/
def sendFrame (v : GameVersion) (encrypted : Bool) (payloadSize : Nat) : SendFrame :=
  match v with
  | .DC | .GC | .PC | .PATCH =>
      let sds := if encrypted then align4 (4 + payloadSize) else 4 + payloadSize
      ⟨sds, sds, sds⟩
  | .BB =>
      let sds := if encrypted then align8 (8 + payloadSize) else 8 + payloadSize
      let ls := align4 (8 + payloadSize)
      ⟨sds, ls, ls⟩

/-- Outbound state of a channel: the keystream position of `crypt_out`
(`none` when encryption is inactive) and the lengths of the frames
enqueued so far, most recent last. -/
structure ChanOutState where
  cryptPos : Option Nat
  sentFrames : List Nat
deriving DecidableEq, Repr

/-- `Channel::send` (`src/Channel.cc`): build the frame, reject it
with `runtime_error("outbound command too large")` when `send_data_size`
exceeds 0x7C00 — the `throw` happens before `crypt_out->encrypt` and
before `evbuffer_add`, so on the error path the state is returned
unchanged — then encrypt (advancing the outbound keystream by the number
of bytes written) and enqueue. -/
def channelSend (v : GameVersion) (st : ChanOutState) (payloadSize : Nat) :
    Except String SendFrame × ChanOutState :=
  let f := sendFrame v st.cryptPos.isSome payloadSize
  if f.txLen > 0x7C00 then
    (.error "outbound command too large", st)
  else
    (.ok f, ⟨st.cryptPos.map (· + f.txLen), st.sentFrames ++ [f.txLen]⟩)

theorem align4_dvd (n : Nat) : 4 ∣ align4 n := Dvd.intro _ (Nat.mul_comm _ _)

theorem align8_dvd (n : Nat) : 8 ∣ align8 n := Dvd.intro _ (Nat.mul_comm _ _)

theorem align4_eq (n : Nat) : align4 n = n + (4 - n % 4) % 4 := by
  unfold align4; omega

theorem align8_eq (n : Nat) : align8 n = n + (8 - n % 8) % 8 := by
  unfold align8; omega

theorem align4_le (n : Nat) : n ≤ align4 n := by
  unfold align4; omega

theorem align8_le (n : Nat) : n ≤ align8 n := by
  unfold align8; omega

/-! ## Inbound side: the stream cipher and `Channel::recv`

The cipher (`PSOEncryption` in `src/PSOEncryption.hh`) is modelled as a
keystream of bytes together with a position.  `decrypt(buf, n, advance)`
XORs `n` bytes with the keystream starting at the current position;
when `advance` is true the position moves forward by `n`, when it is
false the position is unchanged (the "peek" decrypt used on the header
in `Channel::recv`). -/

/-- One inbound cipher: a keystream of bytes and the current position. -/
structure CryptState where
  ks : Nat → Nat
  pos : Nat

/-- Decrypt a byte list against keystream `ks` starting at position `p`. -/
def decryptFrom (ks : Nat → Nat) (p : Nat) : List Nat → List Nat
  | [] => []
  | b :: rest => ((b ^^^ ks p) % 256) :: decryptFrom ks (p + 1) rest

/-- `decrypt(buf, n, false)`: produce the plaintext without advancing. -/
def CryptState.peekDecrypt (cs : CryptState) (bs : List Nat) : List Nat :=
  decryptFrom cs.ks cs.pos bs

/-- `decrypt(buf, n, true)`: produce the plaintext and advance the
keystream position by the number of bytes decrypted. -/
def CryptState.advanceDecrypt (cs : CryptState) (bs : List Nat) : List Nat × CryptState :=
  (decryptFrom cs.ks cs.pos bs, ⟨cs.ks, cs.pos + bs.length⟩)

theorem decryptFrom_length (ks : Nat → Nat) (p : Nat) (bs : List Nat) :
    (decryptFrom ks p bs).length = bs.length := by
  induction bs generalizing p with
  | nil => rfl
  | cons b rest ih => simp [decryptFrom, ih]

/-- Modelled from the spec: the `PSOCommandHeader` struct bodies are not
under `src/`.  Per the wire-protocol description, the DC/GC header is
`(command: u8, flag: u8, size: u16)` (big-endian on GC, little-endian on
DC), the PC/patch header is `(size: u16 LE, command: u8, flag: u8)`, and
the BB header is `(size: u16 LE, command: u16 LE, flag: u32 LE)`.  This
function is `header.size(version)`. -/
def hdrSizeField (v : GameVersion) (h : List Nat) : Nat :=
  match v with
  | .DC => h.getD 2 0 + 256 * h.getD 3 0
  | .GC => 256 * h.getD 2 0 + h.getD 3 0
  | .PC | .PATCH => h.getD 0 0 + 256 * h.getD 1 0
  | .BB => h.getD 0 0 + 256 * h.getD 1 0

/-- Modelled from the spec: `header.command(version)` (see `hdrSizeField`
for the layouts). -/
def hdrCommandField (v : GameVersion) (h : List Nat) : Nat :=
  match v with
  | .DC | .GC => h.getD 0 0
  | .PC | .PATCH => h.getD 2 0
  | .BB => h.getD 2 0 + 256 * h.getD 3 0

/-- Modelled from the spec: `header.flag(version)` (see `hdrSizeField`
for the layouts). -/
def hdrFlagField (v : GameVersion) (h : List Nat) : Nat :=
  match v with
  | .DC | .GC => h.getD 1 0
  | .PC | .PATCH => h.getD 3 0
  | .BB => h.getD 4 0 + 256 * h.getD 5 0 + 65536 * h.getD 6 0 + 16777216 * h.getD 7 0

/-- The value returned by `Channel::recv`: `{command, flag, data}`. -/
structure Message where
  command : Nat
  flag : Nat
  data : List Nat
deriving DecidableEq, Repr

/-- Inbound state of a channel: `crypt_in` (`none` when encryption is
inactive) and the receive buffer contents (ciphertext bytes). -/
structure ChanInState where
  cryptIn : Option CryptState
  buf : List Nat

/-- The header as `Channel::recv` sees it after `evbuffer_copyout` and the
non-advancing `crypt_in->decrypt(&header, header_size, false)`. -/
def recvHeader (v : GameVersion) (st : ChanInState) : List Nat :=
  match st.cryptIn with
  | none => st.buf.take (headerSize v)
  | some cs => cs.peekDecrypt (st.buf.take (headerSize v))

/-- `command_logical_size = header.size(version)` in `Channel::recv`. -/
def recvLogicalSize (v : GameVersion) (st : ChanInState) : Nat :=
  hdrSizeField v (recvHeader v st)

/-- `command_physical_size` in `Channel::recv`: when encryption is
enabled, BB pads commands to 8-byte boundaries, and this is not
reflected in the size field; the padding does not occur if encryption
is not yet enabled. -/
def recvPhysicalSize (v : GameVersion) (st : ChanInState) : Nat :=
  if st.cryptIn.isSome ∧ v = GameVersion.BB then align8 (recvLogicalSize v st)
  else recvLogicalSize v st

/-- `Channel::recv` (`src/Channel.cc`):

1. fail with `out_of_range("no command available")` when the buffer
   holds fewer bytes than the header (before any cipher use);
2. peek-decrypt the header (without advancing `crypt_in`), read the
   logical size, compute the physical size, and fail with the same error
   when the buffer holds fewer bytes than the physical frame — `crypt_in`
   and the buffer are untouched on both failure paths;
3. otherwise remove the header and body from the buffer, decrypting each
   with `advance=true`, and return the command, the flag, and the body
   truncated (`command_data.resize`) to `logical - header_size` bytes. -/
def channelRecv (v : GameVersion) (st : ChanInState) : Except String Message × ChanInState :=
  if st.buf.length < headerSize v then (.error "no command available", st)
  else if st.buf.length < recvPhysicalSize v st then (.error "no command available", st)
  else
    let hs := headerSize v
    let hdr := recvHeader v st
    let logical := recvLogicalSize v st
    let physical := recvPhysicalSize v st
    match st.cryptIn with
    | none =>
        (.ok ⟨hdrCommandField v hdr, hdrFlagField v hdr,
              ((st.buf.drop hs).take (physical - hs)).take (logical - hs)⟩,
         ⟨none, st.buf.drop physical⟩)
    | some cs =>
        let p1 := cs.advanceDecrypt (st.buf.take hs)
        let p2 := p1.2.advanceDecrypt ((st.buf.drop hs).take (physical - hs))
        (.ok ⟨hdrCommandField v hdr, hdrFlagField v hdr, p2.1.take (logical - hs)⟩,
         ⟨some p2.2, st.buf.drop physical⟩)

theorem recvLogicalSize_le_physical (v : GameVersion) (st : ChanInState) :
    recvLogicalSize v st ≤ recvPhysicalSize v st := by
  unfold recvPhysicalSize
  split
  · exact align8_le _
  · exact Nat.le_refl _

/-! ## Claim theorems for the Channel -/

/-- C1 (counterexample): the claim states that on v2/v3 channels every
transmitted frame's length is a multiple of 4, with no encryption
qualifier.  `Channel::send` only rounds the frame when `crypt_out` is
set: on an unencrypted GC (v3) channel a 1-byte payload is transmitted
as a 5-byte frame, which is not a multiple of 4. -/
theorem sendFrame_v3_unencrypted_counterexample :
    (sendFrame GameVersion.GC false 1).txLen = 5 ∧
      ¬ (4 ∣ (sendFrame GameVersion.GC false 1).txLen) := by
  decide

/-- C1 (amended): on a BB (v4) channel with outbound encryption active,
the transmitted length is the header-plus-payload size rounded up to a
multiple of 8, while the header's size field is that size rounded up to
a multiple of 4; without encryption no 8-octet rounding occurs (the
frame is exactly header plus payload).  On v2/v3 channels the
transmitted length is a multiple of 4 *when encryption is active*, and
exactly header plus payload otherwise.  In all cases the size field
written to the header equals the frame's logical (pre-transmission-
padding) size. -/
theorem sendFrame_padding (ps : Nat) :
    ((sendFrame GameVersion.BB true ps).txLen = align8 (8 + ps) ∧
      8 ∣ (sendFrame GameVersion.BB true ps).txLen ∧
      (sendFrame GameVersion.BB true ps).sizeField = align4 (8 + ps)) ∧
    (sendFrame GameVersion.BB false ps).txLen = 8 + ps ∧
    (∀ v, v ≠ GameVersion.BB →
      4 ∣ (sendFrame v true ps).txLen ∧ (sendFrame v false ps).txLen = 4 + ps) ∧
    (∀ v e, (sendFrame v e ps).sizeField = (sendFrame v e ps).logicalSize) := by
  refine ⟨⟨rfl, align8_dvd _, rfl⟩, rfl, ?_, ?_⟩
  · intro v hv
    cases v with
    | BB => exact absurd rfl hv
    | DC => exact ⟨align4_dvd _, rfl⟩
    | GC => exact ⟨align4_dvd _, rfl⟩
    | PC => exact ⟨align4_dvd _, rfl⟩
    | PATCH => exact ⟨align4_dvd _, rfl⟩
  · intro v e
    cases v <;> cases e <;> rfl

/-- C1 (witness): the amended theorem applied at payload size 5. -/
theorem sendFrame_padding_witness :
    GameVersion.GC ≠ GameVersion.BB ∧
      4 ∣ (sendFrame GameVersion.GC true 5).txLen ∧
      (sendFrame GameVersion.GC false 5).txLen = 4 + 5 ∧
      (sendFrame GameVersion.BB true 5).txLen = align8 (8 + 5) :=
  ⟨by decide, ((sendFrame_padding 5).2.2.1 GameVersion.GC (by decide)).1,
    ((sendFrame_padding 5).2.2.1 GameVersion.GC (by decide)).2,
    ((sendFrame_padding 5).1).1⟩

/-- C9: `Channel::send` rejects any frame whose padded size exceeds
0x7C00 octets by raising `runtime_error("outbound command too large")`,
with the outbound state (cipher position and enqueued frames) left
exactly as it was; a frame whose padded size is at most 0x7C00 —
including exactly 0x7C00 — is not rejected: it is enqueued and the
outbound keystream advances by the transmitted length. -/
theorem channelSend_size_limit (v : GameVersion) (st : ChanOutState) (ps : Nat) :
    ((sendFrame v st.cryptPos.isSome ps).txLen > 0x7C00 →
      channelSend v st ps = (.error "outbound command too large", st)) ∧
    ((sendFrame v st.cryptPos.isSome ps).txLen ≤ 0x7C00 →
      channelSend v st ps =
        (.ok (sendFrame v st.cryptPos.isSome ps),
         ⟨st.cryptPos.map (· + (sendFrame v st.cryptPos.isSome ps).txLen),
          st.sentFrames ++ [(sendFrame v st.cryptPos.isSome ps).txLen]⟩)) := by
  constructor
  · intro h
    unfold channelSend
    rw [if_pos h]
  · intro h
    unfold channelSend
    rw [if_neg (by omega)]

/-- C9 (witness): a BB encrypted send of 0x7BF9 payload bytes pads to
0x7C08 > 0x7C00 and is rejected with the state unchanged; a GC encrypted
send of 0x7BFC payload bytes pads to exactly 0x7C00 and succeeds. -/
theorem channelSend_size_limit_witness :
    channelSend GameVersion.BB ⟨some 0, []⟩ 0x7BF9 =
      (.error "outbound command too large", ⟨some 0, []⟩) ∧
    (sendFrame GameVersion.GC true 0x7BFC).txLen = 0x7C00 ∧
    channelSend GameVersion.GC ⟨some 5, []⟩ 0x7BFC =
      (.ok (sendFrame GameVersion.GC true 0x7BFC),
       ⟨some (5 + (sendFrame GameVersion.GC true 0x7BFC).txLen),
        [(sendFrame GameVersion.GC true 0x7BFC).txLen]⟩) := by
  refine ⟨(channelSend_size_limit GameVersion.BB ⟨some 0, []⟩ 0x7BF9).1 (by decide),
    by decide, ?_⟩
  have h := (channelSend_size_limit GameVersion.GC ⟨some 5, []⟩ 0x7BFC).2 (by decide)
  simpa using h

/-- C2: `Channel::recv` peeks and decrypts the header without advancing
the inbound keystream.  If the buffer holds fewer bytes than the header,
or fewer than the full physical frame, it fails with
"no command available" with the buffer and `crypt_in` untouched.
Otherwise it consumes exactly the physical frame from the buffer, the
inbound keystream advances by exactly one position per consumed octet,
and the returned message carries the header's command and flag and a
payload truncated to the logical size. -/
theorem channelRecv_spec (v : GameVersion) (st : ChanInState) :
    ((st.buf.length < headerSize v ∨ st.buf.length < recvPhysicalSize v st) →
      channelRecv v st = (.error "no command available", st)) ∧
    (headerSize v ≤ st.buf.length → recvPhysicalSize v st ≤ st.buf.length →
      headerSize v ≤ recvLogicalSize v st →
      ∃ m : Message,
        (channelRecv v st).1 = .ok m ∧
        m.command = hdrCommandField v (recvHeader v st) ∧
        m.flag = hdrFlagField v (recvHeader v st) ∧
        m.data.length = recvLogicalSize v st - headerSize v ∧
        (channelRecv v st).2.buf = st.buf.drop (recvPhysicalSize v st) ∧
        (channelRecv v st).2.cryptIn =
          st.cryptIn.map (fun cs => ⟨cs.ks, cs.pos + recvPhysicalSize v st⟩)) := by
  constructor
  · intro h
    unfold channelRecv
    rcases h with h | h
    · rw [if_pos h]
    · by_cases h1 : st.buf.length < headerSize v
      · rw [if_pos h1]
      · rw [if_neg h1, if_pos h]
  · intro h1 h2 h3
    have hlp : recvLogicalSize v st ≤ recvPhysicalSize v st :=
      recvLogicalSize_le_physical v st
    have hhp : headerSize v ≤ recvPhysicalSize v st := Nat.le_trans h3 hlp
    unfold channelRecv
    rw [if_neg (Nat.not_lt.mpr h1), if_neg (Nat.not_lt.mpr h2)]
    cases hc : st.cryptIn with
    | none =>
        refine ⟨_, rfl, rfl, rfl, ?_, rfl, rfl⟩
        simp only [List.length_take, List.length_drop]
        omega
    | some cs =>
        refine ⟨_, rfl, rfl, rfl, ?_, rfl, ?_⟩
        · simp only [CryptState.advanceDecrypt, decryptFrom_length,
            List.length_take, List.length_drop]
          omega
        · simp only [CryptState.advanceDecrypt, Option.map_some]
          congr 2
          simp only [decryptFrom_length, List.length_take, List.length_drop]
          omega

/-- C2 (witness): a GC channel with a zero keystream and an 8-byte buffer
holding a 4-byte header (size field 8, big-endian) plus 4 payload bytes;
the theorem's success case applies. -/
theorem channelRecv_spec_witness :
    ∃ m : Message,
      (channelRecv GameVersion.GC ⟨some ⟨fun _ => 0, 0⟩, [0x60, 0, 0, 8, 1, 2, 3, 4]⟩).1 =
        .ok m ∧
      m.command = hdrCommandField GameVersion.GC
        (recvHeader GameVersion.GC ⟨some ⟨fun _ => 0, 0⟩, [0x60, 0, 0, 8, 1, 2, 3, 4]⟩) ∧
      m.flag = hdrFlagField GameVersion.GC
        (recvHeader GameVersion.GC ⟨some ⟨fun _ => 0, 0⟩, [0x60, 0, 0, 8, 1, 2, 3, 4]⟩) ∧
      m.data.length = recvLogicalSize GameVersion.GC
          ⟨some ⟨fun _ => 0, 0⟩, [0x60, 0, 0, 8, 1, 2, 3, 4]⟩ - headerSize GameVersion.GC ∧
      (channelRecv GameVersion.GC ⟨some ⟨fun _ => 0, 0⟩, [0x60, 0, 0, 8, 1, 2, 3, 4]⟩).2.buf =
        [0x60, 0, 0, 8, 1, 2, 3, 4].drop
          (recvPhysicalSize GameVersion.GC ⟨some ⟨fun _ => 0, 0⟩, [0x60, 0, 0, 8, 1, 2, 3, 4]⟩) ∧
      (channelRecv GameVersion.GC ⟨some ⟨fun _ => 0, 0⟩, [0x60, 0, 0, 8, 1, 2, 3, 4]⟩).2.cryptIn =
        (some (⟨fun _ => 0, 0⟩ : CryptState)).map
          (fun cs => ⟨cs.ks, cs.pos +
            recvPhysicalSize GameVersion.GC ⟨some ⟨fun _ => 0, 0⟩, [0x60, 0, 0, 8, 1, 2, 3, 4]⟩⟩) :=
  (channelRecv_spec GameVersion.GC ⟨some ⟨fun _ => 0, 0⟩, [0x60, 0, 0, 8, 1, 2, 3, 4]⟩).2
    (by decide) (by decide) (by decide)

/-! ## Game versions, items, inventories, and lobby state

The subcommand handlers in `src/ItemData.hh` run against the `Lobby`
and player-inventory state.  The bodies of the `Lobby` and character
methods (`generate_item_id`, `add_item`, `remove_item`, `item_exists`,
`visible_to_client`, the inventory `add_item`/`remove_item`) are not
under `src/`; they are modelled from the specification (§3 Lobby, §4.7)
and from the handler-side comments in `src/ItemData.hh`. -/

/-- The client-variant enumeration (`Version` in the source), restricted
to the variants named by the handlers under study. -/
inductive Version
  | DC_NTE
  | DC_V1_11_2000_PROTOTYPE
  | DC_V1
  | DC_V2
  | PC_NTE
  | PC_V2
  | GC_NTE
  | GC_V3
  | GC_EP3_NTE
  | GC_EP3
  | XB_V3
  | BB_V4
deriving DecidableEq, Repr

/-- Modelled from the spec: the pre-v1 generation consists of the two
prototype variants (`is_pre_v1` in the source; `Version.hh` is not under
`src/`). -/
def isPreV1 : Version → Bool
  | .DC_NTE | .DC_V1_11_2000_PROTOTYPE => true
  | _ => false

/-- An item as the handlers see it: its 32-bit ID, its kind identity
(standing for the `data1`-derived primary identifier), and its stack
count.  `0xFFFFFFFF` denotes an unassigned ID. -/
structure InvItem where
  itemId : Nat
  kind : Nat
  count : Nat
deriving DecidableEq, Repr

/-- A player inventory: the list of held items (at most 30). -/
structure Inventory where
  items : List InvItem
deriving DecidableEq, Repr

/-- Helper for `Inventory.removeItem`: remove `amount` of the first item
whose ID is `id`, returning the removed portion and the remaining list,
or `none` when no item has that ID. -/
def removeInvItem (id amount : Nat) : List InvItem → Option (InvItem × List InvItem)
  | [] => none
  | it :: rest =>
    if it.itemId = id then
      if amount ≠ 0 ∧ amount < it.count then
        some (⟨0xFFFFFFFF, it.kind, amount⟩, ⟨it.itemId, it.kind, it.count - amount⟩ :: rest)
      else
        some (it, rest)
    else
      (removeInvItem id amount rest).map (fun r => (r.1, it :: r.2))

/-- Modelled from the spec: the character's `remove_item(id, amount, v)`
(not under `src/`).  Removing part of a stack leaves the original stack
in place and returns the removed portion; per the comment in
`on_drop_partial_stack_bb` (`src/ItemData.hh`), a split is signalled by
returning an item whose ID is `0xFFFFFFFF`.  Removing the whole stack
(or a non-stackable item) removes and returns the inventory entry
itself.  Fails when no item has the given ID. -/
def Inventory.removeItem (inv : Inventory) (id amount : Nat) :
    Except String (InvItem × Inventory) :=
  match removeInvItem id amount inv.items with
  | none => .error "item not present"
  | some (it, rest) => .ok (it, ⟨rest⟩)

/-- Helper for `Inventory.addItem`: combine `it` into the first entry of
the same kind, keeping that entry's ID. -/
def combineInvItem (it : InvItem) : List InvItem → List InvItem
  | [] => []
  | e :: rest =>
    if e.kind = it.kind then ⟨e.itemId, e.kind, e.count + it.count⟩ :: rest
    else e :: combineInvItem it rest

/-- Modelled from the spec: the character's `add_item(item, v)` (not
under `src/`).  A stackable item combines with an existing stack of the
same kind (the stack keeps its ID); otherwise the item occupies a new
slot, and when all 30 slots are occupied the call fails with
`out_of_range` ("inventory full"). -/
def Inventory.addItem (inv : Inventory) (it : InvItem) : Except String Inventory :=
  if inv.items.any (fun e => e.kind = it.kind) then
    .ok ⟨combineInvItem it inv.items⟩
  else if 30 ≤ inv.items.length then
    .error "inventory full"
  else
    .ok ⟨inv.items ++ [it]⟩

/-- A floor item: the item data, its floor, its position, and the 4-bit
visibility mask over participant slots. -/
structure FloorItem where
  data : InvItem
  floor : Nat
  x : Int
  z : Int
  visMask : Nat
deriving DecidableEq, Repr

/-- Modelled from the spec: `visible_to_client(k)` tests the
participant's bit in the floor item's visibility mask. -/
def FloorItem.visibleToClient (fi : FloorItem) (slot : Nat) : Bool :=
  fi.visMask.testBit slot

/-- A lobby participant as the handlers see them: the variant they
speak, the floor they are on, and whether their join-command queue is
active (`game_join_command_queue` in the source). -/
structure LClient where
  version : Version
  floor : Nat
  joinQueueActive : Bool
deriving DecidableEq, Repr

/-- The drop-mode policy (`Lobby::DropMode`). -/
inductive DropMode
  | DISABLED
  | CLIENT
  | SERVER_SHARED
  | SERVER_DUPLICATE
  | SERVER_PRIVATE
deriving DecidableEq, Repr

/-- The lobby state consulted by the handlers: 12 participant slots
(`clients`, indexed by `lobby_client_id`), the leader slot, the
floor-item table, the per-participant and server item-ID progressions,
the drop mode, and the flags the handlers branch on. -/
structure Lobby where
  isGame : Bool
  baseVersion : Version
  leaderId : Nat
  maxClients : Nat
  clients : List (Option LClient)
  floorItems : List FloorItem
  nextClientItemId : List Nat
  nextServerItemId : Nat
  dropMode : DropMode
deriving DecidableEq, Repr

/-- Modelled from the spec (§4.7): `item_id_for_client(k)` /
`generate_item_id(client_id)` returns the next ID in `k`'s progression
and advances it; an authoritative ID is minted from a separate
progression addressed by the sentinel `0xFF` (any `client_id ≥ 12`). -/
def Lobby.generateItemId (l : Lobby) (clientId : Nat) : Nat × Lobby :=
  if clientId < 12 then
    (l.nextClientItemId.getD clientId 0,
     { l with nextClientItemId :=
         l.nextClientItemId.set clientId (l.nextClientItemId.getD clientId 0 + 1) })
  else
    (l.nextServerItemId, { l with nextServerItemId := l.nextServerItemId + 1 })

/-- Modelled from the spec: `Lobby::item_exists(floor, id)`. -/
def Lobby.itemExists (l : Lobby) (floor id : Nat) : Bool :=
  l.floorItems.any (fun fi => fi.floor = floor ∧ fi.data.itemId = id)

/-- Modelled from the spec: `Lobby::add_item` re-inserting an existing
floor-item record into the floor-item table. -/
def Lobby.addFloorItem (l : Lobby) (fi : FloorItem) : Lobby :=
  { l with floorItems := l.floorItems ++ [fi] }

/-- Modelled from the spec: `Lobby::add_item(floor, item, x, z,
visibility_mask)` places an item into the floor-item table. -/
def Lobby.addItem (l : Lobby) (floor : Nat) (it : InvItem) (x z : Int) (mask : Nat) : Lobby :=
  l.addFloorItem ⟨it, floor, x, z, mask⟩

/-- Helper for `Lobby.removeItem`: extract the first floor item with the
given floor and ID. -/
def removeFloorItem (floor id : Nat) : List FloorItem → Option (FloorItem × List FloorItem)
  | [] => none
  | fi :: rest =>
    if fi.floor = floor ∧ fi.data.itemId = id then
      some (fi, rest)
    else
      (removeFloorItem floor id rest).map (fun r => (r.1, fi :: r.2))

/-- Modelled from the spec: `Lobby::remove_item(floor, id, requester)`
removes the floor item and hands it to the caller (the caller checks
visibility itself in `on_pick_up_item_generic`). -/
def Lobby.removeItem (l : Lobby) (floor id : Nat) : Option (FloorItem × Lobby) :=
  (removeFloorItem floor id l.floorItems).map
    (fun r => (r.1, { l with floorItems := r.2 }))

theorem removeFloorItem_perm (floor id : Nat) (xs : List FloorItem)
    (fi : FloorItem) (rest : List FloorItem)
    (h : removeFloorItem floor id xs = some (fi, rest)) :
    (rest ++ [fi]).Perm xs := by
  induction xs generalizing rest with
  | nil => simp [removeFloorItem] at h
  | cons x tail ih =>
      unfold removeFloorItem at h
      by_cases hx : x.floor = floor ∧ x.data.itemId = id
      · rw [if_pos hx] at h
        simp only [Option.some.injEq, Prod.mk.injEq] at h
        obtain ⟨rfl, rfl⟩ := h
        exact List.perm_append_singleton _ _
      · rw [if_neg hx] at h
        cases hrec : removeFloorItem floor id tail with
        | none =>
            rw [hrec] at h
            simp only [Option.map_none'] at h
            exact Option.noConfusion h
        | some r =>
            cases r with
            | mk rfi rrest =>
                rw [hrec] at h
                simp only [Option.map_some', Option.some.injEq, Prod.mk.injEq] at h
                obtain ⟨rfl, rfl⟩ := h
                simpa using List.Perm.cons x (ih rrest hrec)

theorem Lobby.removeItem_eq (l : Lobby) (floor id : Nat) (fi : FloorItem) (l1 : Lobby)
    (h : l.removeItem floor id = some (fi, l1)) :
    ∃ rest, removeFloorItem floor id l.floorItems = some (fi, rest) ∧
      l1 = { l with floorItems := rest } := by
  unfold Lobby.removeItem at h
  cases hrec : removeFloorItem floor id l.floorItems with
  | none =>
      rw [hrec] at h
      simp only [Option.map_none'] at h
      exact Option.noConfusion h
  | some r =>
      cases r with
      | mk rfi rrest =>
          rw [hrec] at h
          simp only [Option.map_some', Option.some.injEq, Prod.mk.injEq] at h
          obtain ⟨rfl, rfl⟩ := h
          exact ⟨rrest, hrec ▸ rfl, rfl⟩

theorem Lobby.itemExists_of_removeItem (l : Lobby) (floor id : Nat)
    (fi : FloorItem) (l1 : Lobby) (h : l.removeItem floor id = some (fi, l1)) :
    l.itemExists floor id = true := by
  obtain ⟨rest, h1, -⟩ := Lobby.removeItem_eq l floor id fi l1 h
  unfold Lobby.itemExists
  have : ∀ xs r, removeFloorItem floor id xs = some r →
      xs.any (fun fi => decide (fi.floor = floor ∧ fi.data.itemId = id)) = true := by
    intro xs
    induction xs with
    | nil => intro r h; simp [removeFloorItem] at h
    | cons x tail ih =>
        intro r h
        unfold removeFloorItem at h
        by_cases hx : x.floor = floor ∧ x.data.itemId = id
        · simp [hx]
        · rw [if_neg hx] at h
          cases hrec : removeFloorItem floor id tail with
          | none =>
              rw [hrec] at h
              simp only [Option.map_none'] at h
              exact Option.noConfusion h
          | some r2 =>
              simp only [List.any_cons, Bool.or_eq_true]
              exact Or.inr (ih r2 hrec)
  exact this l.floorItems (fi, rest) h1

/-! ## The pick-up handler (`on_pick_up_item_generic`) -/

/-- The two per-recipient notifications of the pick-up fan-out
(`send_pick_up_item_to_client` / `send_create_inventory_item_to_client`
in the source). -/
inductive PickUpMsg
  | pickUp (clientId itemId floor : Nat)
  | createInventoryItem (clientId : Nat) (item : InvItem)
deriving DecidableEq, Repr

/-- The fan-out loop at the end of `on_pick_up_item_generic`
(`src/ItemData.hh`): `for z in 0..11`, skip empty slots and — for a
direct 6x59 pick-up (`!is_request`) — the sender; send a pick-up
notification when the picked-up floor item was visible to slot `z`, and
a create-inventory-item notification otherwise. -/
def pickUpFanOut (l : Lobby) (fi : FloorItem) (senderSlot clientId floor itemId : Nat)
    (isRequest : Bool) : List (Nat × PickUpMsg) :=
  (List.range 12).filterMap (fun z =>
    if (l.clients.getD z none).isSome then
      if ¬isRequest ∧ z = senderSlot then none
      else if fi.visibleToClient z then some (z, .pickUp clientId itemId floor)
      else some (z, .createInventoryItem clientId fi.data)
    else none)

/-- The part of `on_pick_up_item_generic` that runs after
`l->remove_item` returned the floor item `fi` (leaving lobby `l1`):
if the item is not visible to the requester, put it back
(`l->add_item(floor, fi)`) and drop the command; if the requester's
inventory is full (`p->add_item` raised `out_of_range`), put it back and
drop the command; otherwise keep the removal, commit the inventory, and
fan out the notifications. -/
def pickUpWithItem (l1 : Lobby) (fi : FloorItem) (inv : Inventory)
    (senderSlot clientId floor itemId : Nat) (isRequest : Bool) :
    Lobby × Inventory × List (Nat × PickUpMsg) :=
  if ¬fi.visibleToClient senderSlot then (l1.addFloorItem fi, inv, [])
  else
    match inv.addItem fi.data with
    | .error _ => (l1.addFloorItem fi, inv, [])
    | .ok inv1 => (l1, inv1, pickUpFanOut l1 fi senderSlot clientId floor itemId isRequest)

/-- `on_pick_up_item_generic` (`src/ItemData.hh`): guard on the lobby
being a game and the command's client ID matching the sender's slot;
drop the command when the floor item does not exist; otherwise remove
the item and continue in `pickUpWithItem`.  Returns the updated lobby,
the updated inventory, and the `(recipient slot, message)` list. -/
def onPickUpItemGeneric (l : Lobby) (inv : Inventory) (senderSlot clientId floor itemId : Nat)
    (isRequest : Bool) : Lobby × Inventory × List (Nat × PickUpMsg) :=
  if ¬l.isGame ∨ clientId ≠ senderSlot then (l, inv, [])
  else if ¬l.itemExists floor itemId then (l, inv, [])
  else
    match l.removeItem floor itemId with
    | none => (l, inv, [])
    | some (fi, l1) => pickUpWithItem l1 fi inv senderSlot clientId floor itemId isRequest

theorem pickUpFanOut_mem (l : Lobby) (fi : FloorItem)
    (senderSlot clientId floor itemId : Nat) (isRequest : Bool) (z : Nat) (m : PickUpMsg) :
    (z, m) ∈ pickUpFanOut l fi senderSlot clientId floor itemId isRequest ↔
      (z < 12 ∧ (l.clients.getD z none).isSome = true ∧
        (isRequest = true ∨ z ≠ senderSlot) ∧
        m = (if fi.visibleToClient z then PickUpMsg.pickUp clientId itemId floor
             else PickUpMsg.createInventoryItem clientId fi.data)) := by
  unfold pickUpFanOut
  rw [List.mem_filterMap]
  constructor
  · rintro ⟨a, ha, hfa⟩
    have haz : a < 12 := List.mem_range.mp ha
    by_cases hget : (l.clients.getD a none).isSome
    · rw [if_pos hget] at hfa
      by_cases hskip : ¬isRequest ∧ a = senderSlot
      · rw [if_pos hskip] at hfa; exact Option.noConfusion hfa
      · rw [if_neg hskip] at hfa
        have hor : isRequest = true ∨ a ≠ senderSlot := by
          rcases Decidable.not_and_iff_or_not.mp hskip with h | h
          · exact Or.inl (by simpa using h)
          · exact Or.inr h
        by_cases hvis : fi.visibleToClient a
        · rw [if_pos hvis] at hfa
          obtain ⟨rfl, rfl⟩ : a = z ∧ PickUpMsg.pickUp clientId itemId floor = m := by
            simpa [Prod.ext_iff] using hfa
          exact ⟨haz, hget, hor, by rw [if_pos hvis]⟩
        · rw [if_neg hvis] at hfa
          obtain ⟨rfl, rfl⟩ : a = z ∧ PickUpMsg.createInventoryItem clientId fi.data = m := by
            simpa [Prod.ext_iff] using hfa
          exact ⟨haz, hget, hor, by rw [if_neg hvis]⟩
    · rw [if_neg hget] at hfa
      exact Option.noConfusion hfa
  · rintro ⟨hz, hocc, hskip, rfl⟩
    refine ⟨z, List.mem_range.mpr hz, ?_⟩
    rw [if_pos hocc]
    have hns : ¬(¬isRequest ∧ z = senderSlot) := by
      rcases hskip with h | h
      · intro hc; exact hc.1 (by simp [h])
      · intro hc; exact h hc.2
    rw [if_neg hns]
    by_cases hvis : fi.visibleToClient z
    · rw [if_pos hvis, if_pos hvis]
    · rw [if_neg hvis, if_neg hvis]

theorem pickUpFanOut_keys_nodup (l : Lobby) (fi : FloorItem)
    (senderSlot clientId floor itemId : Nat) (isRequest : Bool) :
    ((pickUpFanOut l fi senderSlot clientId floor itemId isRequest).map Prod.fst).Nodup := by
  unfold pickUpFanOut
  have hkey : ∀ (a : Nat) (p : Nat × PickUpMsg),
      (if (l.clients.getD a none).isSome then
        if ¬isRequest ∧ a = senderSlot then none
        else if fi.visibleToClient a then some (a, PickUpMsg.pickUp clientId itemId floor)
        else some (a, PickUpMsg.createInventoryItem clientId fi.data)
      else none) = some p →
      p.1 = a := by
    intro a p h
    by_cases hget : (l.clients.getD a none).isSome
    · rw [if_pos hget] at h
      by_cases hskip : ¬isRequest ∧ a = senderSlot
      · rw [if_pos hskip] at h; exact Option.noConfusion h
      · rw [if_neg hskip] at h
        by_cases hvis : fi.visibleToClient a
        · rw [if_pos hvis] at h; rw [← Option.some.inj h]
        · rw [if_neg hvis] at h; rw [← Option.some.inj h]
    · rw [if_neg hget] at h; exact Option.noConfusion h
  have : ∀ (xs : List Nat), xs.Nodup →
      ((xs.filterMap (fun z =>
        if (l.clients.getD z none).isSome then
          if ¬isRequest ∧ z = senderSlot then none
          else if fi.visibleToClient z then some (z, PickUpMsg.pickUp clientId itemId floor)
          else some (z, PickUpMsg.createInventoryItem clientId fi.data)
        else none)).map Prod.fst).Nodup := by
    intro xs
    induction xs with
    | nil => intro; simp
    | cons a t ih =>
        intro hnd
        rw [List.filterMap_cons]
        cases hfa : (if (l.clients.getD a none).isSome then
            if ¬isRequest ∧ a = senderSlot then none
            else if fi.visibleToClient a then some (a, PickUpMsg.pickUp clientId itemId floor)
            else some (a, PickUpMsg.createInventoryItem clientId fi.data)
          else none) with
        | none => exact ih (List.Nodup.of_cons hnd)
        | some p =>
            simp only [List.map_cons, List.nodup_cons]
            refine ⟨?_, ih (List.Nodup.of_cons hnd)⟩
            rw [hkey a p hfa]
            intro hmem
            rw [List.mem_map] at hmem
            obtain ⟨q, hq, hq1⟩ := hmem
            rw [List.mem_filterMap] at hq
            obtain ⟨b, hb, hfb⟩ := hq
            have : q.1 = b := hkey b q hfb
            have hab : a = b := by rw [← hq1, this]
            exact (List.nodup_cons.mp hnd).1 (hab ▸ hb)
  exact this (List.range 12) (List.nodup_range 12)

theorem onPickUpItemGeneric_reduce (l : Lobby) (inv : Inventory)
    (senderSlot floor itemId : Nat) (isRequest : Bool) (fi : FloorItem) (l1 : Lobby)
    (hg : l.isGame = true)
    (hrem : l.removeItem floor itemId = some (fi, l1)) :
    onPickUpItemGeneric l inv senderSlot senderSlot floor itemId isRequest =
      pickUpWithItem l1 fi inv senderSlot senderSlot floor itemId isRequest := by
  have hex := Lobby.itemExists_of_removeItem l floor itemId fi l1 hrem
  unfold onPickUpItemGeneric
  rw [if_neg (show ¬(¬l.isGame = true ∨ senderSlot ≠ senderSlot) by simp [hg]),
    if_neg (show ¬¬(l.itemExists floor itemId = true) by simp [hex]), hrem]

/-- C3: a pick-up (6x59) or pick-up request (6x5A) in a game naming an
existing floor item that is not visible to the requesting slot is
recovered locally: the handler restores the removed item, so the
floor-item table holds the same items as before (as a permutation of the
table list), every other lobby field is untouched, the inventory is
unchanged, and no message is sent to any participant.  The same local
recovery happens when the item is visible but the requester's inventory
is full (`add_item` fails). -/
theorem onPickUp_semantic_drop_recovery (l : Lobby) (inv : Inventory)
    (senderSlot floor itemId : Nat) (isRequest : Bool) (fi : FloorItem) (l1 : Lobby)
    (hg : l.isGame = true)
    (hrem : l.removeItem floor itemId = some (fi, l1)) :
    (fi.visibleToClient senderSlot = false →
      onPickUpItemGeneric l inv senderSlot senderSlot floor itemId isRequest
        = (l1.addFloorItem fi, inv, []) ∧
      (l1.addFloorItem fi).floorItems.Perm l.floorItems ∧
      l1.addFloorItem fi = { l with floorItems := (l1.addFloorItem fi).floorItems }) ∧
    (∀ e : String, fi.visibleToClient senderSlot = true →
      inv.addItem fi.data = .error e →
      onPickUpItemGeneric l inv senderSlot senderSlot floor itemId isRequest
        = (l1.addFloorItem fi, inv, []) ∧
      (l1.addFloorItem fi).floorItems.Perm l.floorItems ∧
      l1.addFloorItem fi = { l with floorItems := (l1.addFloorItem fi).floorItems }) := by
  have hred := onPickUpItemGeneric_reduce l inv senderSlot floor itemId isRequest fi l1 hg hrem
  obtain ⟨rest, hrf, hl1⟩ := Lobby.removeItem_eq l floor itemId fi l1 hrem
  subst hl1
  have hperm : (Lobby.addFloorItem { l with floorItems := rest } fi).floorItems.Perm
      l.floorItems := by
    simpa [Lobby.addFloorItem] using removeFloorItem_perm floor itemId l.floorItems fi rest hrf
  constructor
  · intro hvis
    refine ⟨?_, hperm, rfl⟩
    rw [hred]
    unfold pickUpWithItem
    rw [if_pos (show ¬(fi.visibleToClient senderSlot = true) by simp [hvis])]
  · intro e hvis hadd
    refine ⟨?_, hperm, rfl⟩
    rw [hred]
    unfold pickUpWithItem
    rw [if_neg (show ¬¬(fi.visibleToClient senderSlot = true) by simp [hvis]), hadd]

/-- C3 (witness): slot 0 requests a floor item whose visibility mask is
`0x2` (slot 1 only); the handler restores the item and sends nothing. -/
theorem onPickUp_semantic_drop_recovery_witness :
    onPickUpItemGeneric
      ⟨true, Version.BB_V4, 0, 4,
        [some ⟨Version.BB_V4, 2, false⟩, some ⟨Version.BB_V4, 2, false⟩, none, none],
        [⟨⟨100, 7, 1⟩, 2, 0, 0, 2⟩], [0x10000, 0x20000], 0x800000, DropMode.SERVER_DUPLICATE⟩
      ⟨[⟨50, 3, 5⟩]⟩ 0 0 2 100 true
      = (⟨true, Version.BB_V4, 0, 4,
          [some ⟨Version.BB_V4, 2, false⟩, some ⟨Version.BB_V4, 2, false⟩, none, none],
          [⟨⟨100, 7, 1⟩, 2, 0, 0, 2⟩], [0x10000, 0x20000], 0x800000,
          DropMode.SERVER_DUPLICATE⟩,
         ⟨[⟨50, 3, 5⟩]⟩, []) := by
  have h := (onPickUp_semantic_drop_recovery
    ⟨true, Version.BB_V4, 0, 4,
      [some ⟨Version.BB_V4, 2, false⟩, some ⟨Version.BB_V4, 2, false⟩, none, none],
      [⟨⟨100, 7, 1⟩, 2, 0, 0, 2⟩], [0x10000, 0x20000], 0x800000, DropMode.SERVER_DUPLICATE⟩
    ⟨[⟨50, 3, 5⟩]⟩ 0 2 100 true ⟨⟨100, 7, 1⟩, 2, 0, 0, 2⟩
    ⟨true, Version.BB_V4, 0, 4,
      [some ⟨Version.BB_V4, 2, false⟩, some ⟨Version.BB_V4, 2, false⟩, none, none],
      [], [0x10000, 0x20000], 0x800000, DropMode.SERVER_DUPLICATE⟩
    (by decide) (by decide)).1 (by decide)
  exact h.1.trans (by decide)

theorem pickUpWithItem_ok_eq (l1 : Lobby) (fi : FloorItem) (inv : Inventory)
    (senderSlot clientId floor itemId : Nat) (isRequest : Bool) (inv1 : Inventory)
    (hvis : fi.visibleToClient senderSlot = true)
    (hadd : inv.addItem fi.data = .ok inv1) :
    pickUpWithItem l1 fi inv senderSlot clientId floor itemId isRequest
      = (l1, inv1, pickUpFanOut l1 fi senderSlot clientId floor itemId isRequest) := by
  unfold pickUpWithItem
  rw [if_neg (show ¬¬(fi.visibleToClient senderSlot = true) by simp [hvis]), hadd]

/-- An example lobby for the pick-up witnesses: slots 0 and 1 occupied,
one floor item on floor 2 with ID 100 and visibility mask `0x2`. -/
def wLobby : Lobby :=
  ⟨true, Version.BB_V4, 0, 4,
    [some ⟨Version.BB_V4, 2, false⟩, some ⟨Version.BB_V4, 2, false⟩, none, none],
    [⟨⟨100, 7, 1⟩, 2, 0, 0, 2⟩], [0x10000, 0x20000], 0x800000, DropMode.SERVER_DUPLICATE⟩

/-- `wLobby` after the floor item has been removed. -/
def wLobbyRemoved : Lobby :=
  ⟨true, Version.BB_V4, 0, 4,
    [some ⟨Version.BB_V4, 2, false⟩, some ⟨Version.BB_V4, 2, false⟩, none, none],
    [], [0x10000, 0x20000], 0x800000, DropMode.SERVER_DUPLICATE⟩

/-- An example inventory for the pick-up witnesses. -/
def wInv : Inventory := ⟨[⟨50, 3, 5⟩]⟩

/-- C7: when a pick-up succeeds, the fan-out sends each notified
participant exactly one message, chosen by that participant's bit in the
picked-up item's visibility mask: a slot `z` receives the pick-up
notification exactly when bit `z` of the mask was set, and the
create-inventory-item notification exactly when it was not.  The
recipient set is precisely the occupied slots (minus the sender for a
direct 6x59 pick-up), and no slot receives two messages. -/
theorem onPickUp_fanout_two_messages (l : Lobby) (inv : Inventory)
    (senderSlot floor itemId : Nat) (isRequest : Bool) (fi : FloorItem) (l1 : Lobby)
    (inv1 : Inventory)
    (hg : l.isGame = true)
    (hrem : l.removeItem floor itemId = some (fi, l1))
    (hvis : fi.visibleToClient senderSlot = true)
    (hadd : inv.addItem fi.data = .ok inv1) :
    onPickUpItemGeneric l inv senderSlot senderSlot floor itemId isRequest
      = (l1, inv1, pickUpFanOut l1 fi senderSlot senderSlot floor itemId isRequest) ∧
    (∀ z m, (z, m) ∈ pickUpFanOut l1 fi senderSlot senderSlot floor itemId isRequest ↔
      (z < 12 ∧ (l1.clients.getD z none).isSome = true ∧
        (isRequest = true ∨ z ≠ senderSlot) ∧
        m = (if fi.visibleToClient z then PickUpMsg.pickUp senderSlot itemId floor
             else PickUpMsg.createInventoryItem senderSlot fi.data))) ∧
    ((pickUpFanOut l1 fi senderSlot senderSlot floor itemId isRequest).map Prod.fst).Nodup :=
  ⟨(onPickUpItemGeneric_reduce l inv senderSlot floor itemId isRequest fi l1 hg hrem).trans
      (pickUpWithItem_ok_eq l1 fi inv senderSlot senderSlot floor itemId isRequest inv1
        hvis hadd),
    fun z m => pickUpFanOut_mem l1 fi senderSlot senderSlot floor itemId isRequest z m,
    pickUpFanOut_keys_nodup l1 fi senderSlot senderSlot floor itemId isRequest⟩

/-- C7 (witness): slot 1 picks up the item with mask `0x2`; slot 0
(whose bit is clear) receives the create-inventory-item message and
slot 1 (whose bit is set) receives the pick-up message. -/
theorem onPickUp_fanout_two_messages_witness :
    onPickUpItemGeneric wLobby wInv 1 1 2 100 true
      = (wLobbyRemoved, ⟨[⟨50, 3, 5⟩, ⟨100, 7, 1⟩]⟩,
         [(0, PickUpMsg.createInventoryItem 1 ⟨100, 7, 1⟩),
          (1, PickUpMsg.pickUp 1 100 2)]) := by
  have h := onPickUp_fanout_two_messages wLobby wInv 1 2 100 true
    ⟨⟨100, 7, 1⟩, 2, 0, 0, 2⟩ wLobbyRemoved ⟨[⟨50, 3, 5⟩, ⟨100, 7, 1⟩]⟩
    (by decide) (by decide) (by decide) (by rfl)
  exact h.1.trans (by decide)

/-- C10: in the pick-up fan-out, a successful pick-up triggered by a
pick-up request (6x5A, `is_request`) includes the requester among the
recipients — and, the item having been visible to them, they receive
the pick-up message for their own action — while a direct pick-up
(6x59) excludes the sender from the fan-out entirely. -/
theorem onPickUp_sender_inclusion (l : Lobby) (inv : Inventory)
    (senderSlot floor itemId : Nat) (isRequest : Bool) (fi : FloorItem) (l1 : Lobby)
    (inv1 : Inventory)
    (hg : l.isGame = true)
    (hrem : l.removeItem floor itemId = some (fi, l1))
    (hvis : fi.visibleToClient senderSlot = true)
    (hadd : inv.addItem fi.data = .ok inv1)
    (hslot : senderSlot < 12)
    (hocc : (l1.clients.getD senderSlot none).isSome = true) :
    (isRequest = true →
      (senderSlot, PickUpMsg.pickUp senderSlot itemId floor)
        ∈ (onPickUpItemGeneric l inv senderSlot senderSlot floor itemId isRequest).2.2) ∧
    (isRequest = false →
      ∀ m, (senderSlot, m)
        ∉ (onPickUpItemGeneric l inv senderSlot senderSlot floor itemId isRequest).2.2) := by
  have heq : onPickUpItemGeneric l inv senderSlot senderSlot floor itemId isRequest
      = (l1, inv1, pickUpFanOut l1 fi senderSlot senderSlot floor itemId isRequest) :=
    (onPickUpItemGeneric_reduce l inv senderSlot floor itemId isRequest fi l1 hg hrem).trans
      (pickUpWithItem_ok_eq l1 fi inv senderSlot senderSlot floor itemId isRequest inv1
        hvis hadd)
  rw [heq]
  constructor
  · intro hreq
    exact (pickUpFanOut_mem l1 fi senderSlot senderSlot floor itemId isRequest senderSlot
      (PickUpMsg.pickUp senderSlot itemId floor)).mpr
      ⟨hslot, hocc, Or.inl hreq, by rw [if_pos hvis]⟩
  · intro hreq m hmem
    have h := (pickUpFanOut_mem l1 fi senderSlot senderSlot floor itemId isRequest
      senderSlot m).mp hmem
    rcases h.2.2.1 with h1 | h1
    · rw [hreq] at h1; exact Bool.noConfusion h1
    · exact h1 rfl

/-- C10 (witness): the requester (slot 1, request path) is among the
recipients of a successful pick-up. -/
theorem onPickUp_sender_inclusion_witness :
    (1, PickUpMsg.pickUp 1 100 2) ∈ (onPickUpItemGeneric wLobby wInv 1 1 2 100 true).2.2 :=
  (onPickUp_sender_inclusion wLobby wInv 1 2 100 true
    ⟨⟨100, 7, 1⟩, 2, 0, 0, 2⟩ wLobbyRemoved ⟨[⟨50, 3, 5⟩, ⟨100, 7, 1⟩]⟩
    (by decide) (by decide) (by decide) (by rfl) (by decide) (by decide)).1 rfl

/-! ## The subcommand forwarder (`forward_subcommand`) -/

/-- `command_is_private` (`src/ItemData.hh`): commands 0x62 and 0x6D
carry the target slot in the frame flag. -/
def commandIsPrivate (command : Nat) : Bool := command = 0x62 ∨ command = 0x6D

/-- `command_is_ep3` in `forward_subcommand`: `(command & 0xF0) == 0xC0`. -/
def commandIsEp3 (command : Nat) : Bool := command &&& 0xF0 = 0xC0

/-- Episode-3 variants (`is_ep3` in the source; modelled from the spec,
`Version.hh` not being under `src/`). -/
def isEp3 : Version → Bool
  | .GC_EP3_NTE | .GC_EP3 => true
  | _ => false

/-- One entry of the router's subcommand table as `forward_subcommand`
uses it: the equivalent subcommand numbers under the two pre-v1
numberings and the v1+ numbering (0 when none exists), and the
forwarding-policy flags. -/
structure SubcommandDef where
  nteSub : Nat
  protoSub : Nat
  finalSub : Nat
  useJoinQueue : Bool
  alwaysForwardToWatchers : Bool
  allowForwardToWatchedLobby : Bool
deriving DecidableEq, Repr

def useQueueFlag : Option SubcommandDef → Bool
  | some df => df.useJoinQueue
  | none => false

def alwaysWatchersFlag : Option SubcommandDef → Bool
  | some df => df.alwaysForwardToWatchers
  | none => false

def allowWatchedFlag : Option SubcommandDef → Bool
  | some df => df.allowForwardToWatchedLobby
  | none => false

/-- The translation step of the `send_to_client` lambda in
`forward_subcommand`: when sender and recipient are both v1-or-later, or
speak the same variant, the payload is forwarded unchanged; otherwise
the leading subcommand byte is rewritten to the recipient's numbering
(`nte_subcommand` / `proto_subcommand` / `final_subcommand`), and when
the table has no mapping (entry 0 or no entry) the message is dropped
for that recipient only. -/
def translateSubData (senderV lcV : Version) (d : Option SubcommandDef)
    (data : List Nat) : Option (List Nat) :=
  if (¬isPreV1 lcV ∧ ¬isPreV1 senderV) ∨ lcV = senderV then some data
  else if lcV = Version.DC_NTE then
    match d with
    | some df => if df.nteSub ≠ 0 then some (data.set 0 df.nteSub) else none
    | none => none
  else if lcV = Version.DC_V1_11_2000_PROTOTYPE then
    match d with
    | some df => if df.protoSub ≠ 0 then some (data.set 0 df.protoSub) else none
    | none => none
  else
    match d with
    | some df => if df.finalSub ≠ 0 then some (data.set 0 df.finalSub) else none
    | none => none

/-- A delivery target of `forward_subcommand`: a slot of this lobby, a
client of a watcher (spectator) lobby, or a client of the watched lobby. -/
inductive FwdTarget
  | lobbySlot (z : Nat)
  | watcher (i : Nat)
  | watched (i : Nat)
deriving DecidableEq, Repr

/-- One outbound delivery made by `forward_subcommand`: the target, the
(possibly renumbered) payload, and whether it was placed on the
recipient's join-command queue instead of being sent immediately. -/
structure FwdEvent where
  target : FwdTarget
  data : List Nat
  queued : Bool
deriving DecidableEq, Repr

/-- The body of the `send_to_client` lambda: translate, then either
queue (when the entry carries `USE_JOIN_COMMAND_QUEUE` and the
recipient's join queue is active) or send. -/
def sendEv (target : FwdTarget) (senderV : Version) (d : Option SubcommandDef)
    (data : List Nat) (lc : LClient) : List FwdEvent :=
  match translateSubData senderV lc.version d data with
  | none => []
  | some ds => [⟨target, ds, useQueueFlag d && lc.joinQueueActive⟩]

/-- Walk the lobby's client array with its slot indices, concatenating
the per-slot deliveries. -/
def fanIndexed (f : Nat → Option LClient → List FwdEvent) :
    Nat → List (Option LClient) → List FwdEvent
  | _, [] => []
  | i, oc :: rest => f i oc ++ fanIndexed f (i + 1) rest

/-- Walk a watcher/watched lobby's client list, delivering only to
Episode-3 clients. -/
def fanWatch (mk : Nat → FwdTarget) (senderV : Version) (d : Option SubcommandDef)
    (data : List Nat) : Nat → List LClient → List FwdEvent
  | _, [] => []
  | i, w :: rest =>
    (if isEp3 w.version then sendEv (mk i) senderV d data w else []) ++
      fanWatch mk senderV d data (i + 1) rest

/-- The parts of the forwarding context that live outside the `Lobby`
record: the Episode-3 clients of the watcher lobbies, the clients of the
watched lobby, whether this lobby is a spectator team, and whether an
Episode-3 battle is past its registration phase (which makes watcher
forwarding unconditional). -/
structure FwdContext where
  watcherClients : List LClient
  watchedClients : List LClient
  isSpectatorTeam : Bool
  ep3BattleActive : Bool
deriving DecidableEq, Repr

/-- `forward_subcommand` (`src/ItemData.hh`): an Episode-3 command from
a non-Episode-3 sender is a fatal error.  A private command (0x62/0x6D)
goes to the slot named by the flag only (nothing when the flag is out of
range or the slot is empty).  A public command goes to every other
occupied slot (Episode-3 commands only to Episode-3 clients, with the
0xCB watched-lobby special case), and additionally to watcher-lobby
Episode-3 clients when the entry carries `ALWAYS_FORWARD_TO_WATCHERS`
or a battle is active.  Each delivery is translated per recipient and
dropped for that recipient when no translation exists. -/
def forwardSubcommand (l : Lobby) (ctx : FwdContext) (senderSlot : Nat) (senderV : Version)
    (command flag : Nat) (d : Option SubcommandDef) (data : List Nat) :
    Except String (List FwdEvent) :=
  if commandIsEp3 command ∧ ¬isEp3 senderV then
    .error "Episode 3 command sent by non-Episode 3 client"
  else if commandIsPrivate command then
    if l.maxClients ≤ flag then .ok []
    else
      match l.clients.getD flag none with
      | none => .ok []
      | some target => .ok (sendEv (FwdTarget.lobbySlot flag) senderV d data target)
  else
    .ok
      ((if commandIsEp3 command then
          fanIndexed (fun i oc =>
            match oc with
            | none => []
            | some lc =>
              if i = senderSlot ∨ ¬isEp3 lc.version then []
              else sendEv (FwdTarget.lobbySlot i) senderV d data lc) 0 l.clients
          ++ (if command = 0xCB ∧ ctx.isSpectatorTeam ∧ allowWatchedFlag d then
                fanWatch FwdTarget.watched senderV d data 0 ctx.watchedClients
              else [])
        else
          fanIndexed (fun i oc =>
            match oc with
            | none => []
            | some lc =>
              if i = senderSlot then []
              else sendEv (FwdTarget.lobbySlot i) senderV d data lc) 0 l.clients)
       ++ (if ctx.ep3BattleActive ∨ alwaysWatchersFlag d then
             fanWatch FwdTarget.watcher senderV d data 0 ctx.watcherClients
           else []))

theorem fanIndexed_mem (f : Nat → Option LClient → List FwdEvent) (i0 : Nat)
    (cls : List (Option LClient)) (j : Nat) (hj : j < cls.length) (ev : FwdEvent)
    (hev : ev ∈ f (i0 + j) (cls.getD j none)) : ev ∈ fanIndexed f i0 cls := by
  induction cls generalizing i0 j with
  | nil => exact absurd hj (by simp)
  | cons oc rest ih =>
      cases j with
      | zero =>
          simp only [Nat.add_zero, List.getD_cons_zero] at hev
          exact List.mem_append_left _ hev
      | succ j =>
          refine List.mem_append_right _ (ih (i0 + 1) j (by simpa using hj) ?_)
          simpa [Nat.add_assoc, Nat.add_comm 1 j] using hev

/-! ## The entity-drop request (`on_entity_drop_item_request`) -/

/-- Outcome of the drop-mode dispatch at the top of
`on_entity_drop_item_request`. -/
inductive DropDispatch
  | notGame
  | dropped
  | forwarded (evs : List FwdEvent)
  | serverHandled
deriving DecidableEq, Repr

/-- The `switch (l->drop_mode)` at the top of
`on_entity_drop_item_request` (`src/ItemData.hh`): not in a game — drop;
`CLIENT` — forward through `forward_subcommand` and return (before any
parsing or state changes); `DISABLED` — return immediately with no state
change and nothing sent; the `SERVER_*` modes fall through to the
server-side generation. -/
def onEntityDropItemRequestDispatch (l : Lobby) (ctx : FwdContext) (senderSlot : Nat)
    (senderV : Version) (command flag : Nat) (d : Option SubcommandDef) (data : List Nat) :
    Except String DropDispatch :=
  if ¬l.isGame then .ok .notGame
  else
    match l.dropMode with
    | .CLIENT =>
        match forwardSubcommand l ctx senderSlot senderV command flag d data with
        | .error e => .error e
        | .ok evs => .ok (.forwarded evs)
    | .DISABLED => .ok .dropped
    | _ => .ok .serverHandled

/-- C6: in a game, an entity-drop request under drop mode `DISABLED` is
dropped — the handler returns before touching any state and forwards
nothing to any participant — while under `CLIENT` it is handed to
`forward_subcommand`; for a public (non-private, non-Episode-3) request
whose subcommand the leader's variant admits, the lobby leader is among
the recipients of the forwarded command. -/
theorem entityDrop_client_and_disabled (l : Lobby) (ctx : FwdContext) (senderSlot : Nat)
    (senderV : Version) (command flag : Nat) (d : Option SubcommandDef) (data : List Nat)
    (hg : l.isGame = true) :
    (l.dropMode = DropMode.DISABLED →
      onEntityDropItemRequestDispatch l ctx senderSlot senderV command flag d data
        = .ok .dropped) ∧
    (l.dropMode = DropMode.CLIENT →
      onEntityDropItemRequestDispatch l ctx senderSlot senderV command flag d data
        = (forwardSubcommand l ctx senderSlot senderV command flag d data).map
            DropDispatch.forwarded ∧
      (∀ ldr : LClient, commandIsPrivate command = false → commandIsEp3 command = false →
        l.leaderId < l.clients.length →
        l.clients.getD l.leaderId none = some ldr →
        l.leaderId ≠ senderSlot →
        ∀ ds, translateSubData senderV ldr.version d data = some ds →
        ∃ evs, forwardSubcommand l ctx senderSlot senderV command flag d data = .ok evs ∧
          (⟨FwdTarget.lobbySlot l.leaderId, ds,
            useQueueFlag d && ldr.joinQueueActive⟩ : FwdEvent) ∈ evs)) := by
  constructor
  · intro hmode
    unfold onEntityDropItemRequestDispatch
    rw [if_neg (show ¬¬(l.isGame = true) by simp [hg]), hmode]
  · intro hmode
    constructor
    · unfold onEntityDropItemRequestDispatch
      rw [if_neg (show ¬¬(l.isGame = true) by simp [hg]), hmode]
      cases forwardSubcommand l ctx senderSlot senderV command flag d data with
      | error e => rfl
      | ok evs => rfl
    · intro ldr hpriv hep3 hlen hldr hne ds htr
      unfold forwardSubcommand
      rw [if_neg (show ¬(commandIsEp3 command = true ∧ ¬isEp3 senderV = true) by
            simp [hep3]),
        if_neg (show ¬(commandIsPrivate command = true) by simp [hpriv]),
        if_neg (show ¬(commandIsEp3 command = true) by simp [hep3])]
      refine ⟨_, rfl, List.mem_append_left _ ?_⟩
      refine fanIndexed_mem _ 0 l.clients l.leaderId hlen _ ?_
      rw [Nat.zero_add, hldr]
      show _ ∈ (if l.leaderId = senderSlot then []
        else sendEv (FwdTarget.lobbySlot l.leaderId) senderV d data ldr)
      rw [if_neg hne]
      unfold sendEv
      rw [htr]
      exact List.mem_singleton.mpr rfl

/-- C6 (witness): a two-participant game in `CLIENT` mode; slot 1 sends
a public drop request and the leader (slot 0, same variant) receives the
unchanged payload; the same lobby in `DISABLED` mode drops the request. -/
theorem entityDrop_client_and_disabled_witness :
    onEntityDropItemRequestDispatch
      ⟨true, Version.GC_V3, 0, 4,
        [some ⟨Version.GC_V3, 1, false⟩, some ⟨Version.GC_V3, 1, false⟩, none, none],
        [], [0x10000, 0x20000], 0x800000, DropMode.DISABLED⟩
      ⟨[], [], false, false⟩ 1 Version.GC_V3 0x60 0 none [0x60, 0x03, 0x00]
      = .ok .dropped ∧
    ∃ evs, forwardSubcommand
      ⟨true, Version.GC_V3, 0, 4,
        [some ⟨Version.GC_V3, 1, false⟩, some ⟨Version.GC_V3, 1, false⟩, none, none],
        [], [0x10000, 0x20000], 0x800000, DropMode.CLIENT⟩
      ⟨[], [], false, false⟩ 1 Version.GC_V3 0x60 0 none [0x60, 0x03, 0x00] = .ok evs ∧
      (⟨FwdTarget.lobbySlot 0, [0x60, 0x03, 0x00], false⟩ : FwdEvent) ∈ evs := by
  constructor
  · exact (entityDrop_client_and_disabled
      ⟨true, Version.GC_V3, 0, 4,
        [some ⟨Version.GC_V3, 1, false⟩, some ⟨Version.GC_V3, 1, false⟩, none, none],
        [], [0x10000, 0x20000], 0x800000, DropMode.DISABLED⟩
      ⟨[], [], false, false⟩ 1 Version.GC_V3 0x60 0 none [0x60, 0x03, 0x00]
      (by decide)).1 rfl
  · exact ((entityDrop_client_and_disabled
      ⟨true, Version.GC_V3, 0, 4,
        [some ⟨Version.GC_V3, 1, false⟩, some ⟨Version.GC_V3, 1, false⟩, none, none],
        [], [0x10000, 0x20000], 0x800000, DropMode.CLIENT⟩
      ⟨[], [], false, false⟩ 1 Version.GC_V3 0x60 0 none [0x60, 0x03, 0x00]
      (by decide)).2 rfl).2 ⟨Version.GC_V3, 1, false⟩ (by decide) (by decide)
      (by decide) (by decide) (by decide) [0x60, 0x03, 0x00] (by decide)

/-! ## The disp-and-inventory sync (`on_sync_joining_player_disp_and_inventory`) -/

/-- The six wire variants of the 6x70 snapshot, as chosen by the
`switch (target_v)` over the `as_dc_nte` / `as_dc_112000` / `as_dc_pc` /
`as_gc` / `as_xb` / `as_bb` emitters. -/
inductive WireVariant
  | DCNTE
  | DC112000
  | DCPC
  | GC
  | XB
  | BB
deriving DecidableEq, Repr

/-- The wire variant used for a given recipient version (the
`switch (target_v)` at the end of the handler). -/
def syncTargetVariant : Version → WireVariant
  | .DC_NTE => .DCNTE
  | .DC_V1_11_2000_PROTOTYPE => .DC112000
  | .DC_V1 | .DC_V2 | .PC_NTE | .PC_V2 => .DCPC
  | .GC_NTE | .GC_V3 | .GC_EP3_NTE | .GC_EP3 => .GC
  | .XB_V3 => .XB
  | .BB_V4 => .BB

/-- The two messages the 6x70 handler can emit to the target: the
synthesized end-of-state marker (the `6x71` sent via command 0x62 to
`target->lobby_client_id`), and the snapshot re-encoded in the target's
wire variant (forwarded via `forward_subcommand_t`, which on this
private path delivers to `l->clients[flag]`, i.e. the target itself). -/
inductive SyncSend
  | marker (slot : Nat)
  | snapshot (slot : Nat) (variant : WireVariant)
deriving DecidableEq, Repr

/-- `get_sync_target` (`src/ItemData.hh`): sync data sent via a public
command is a fatal error; otherwise the target is `l->clients[flag]`
when the lobby is a game, loading is allowed (the 6x70 handler passes
`allow_if_not_loading = true`), and the flag is a valid slot. -/
def getSyncTarget (l : Lobby) (isPrivate : Bool) (flag : Nat)
    (allowIfNotLoading anyLoading : Bool) : Except String (Option LClient) :=
  if ¬isPrivate then .error "sync data sent via public command"
  else .ok
    (if l.isGame ∧ (allowIfNotLoading ∨ anyLoading) ∧ flag < l.maxClients then
      l.clients.getD flag none
    else none)

/-- `on_sync_joining_player_disp_and_inventory` (`src/ItemData.hh`):
look up the sync target (passing `allow_if_not_loading = true`); when
there is none, return with nothing sent.  When the sender is pre-v1 and
the target is not, synthesize the end-of-state marker (6x71) to the
target first; then parse the snapshot for the sender's variant,
transcode the inventory items, and forward it re-encoded in the target's
wire variant. -/
def onSyncJoiningPlayerDispAndInventory (l : Lobby) (senderV : Version)
    (isPrivate : Bool) (flag : Nat) (anyLoading : Bool) :
    Except String (List SyncSend) :=
  match getSyncTarget l isPrivate flag true anyLoading with
  | .error e => .error e
  | .ok none => .ok []
  | .ok (some target) =>
      .ok ((if isPreV1 senderV ∧ ¬isPreV1 target.version then [SyncSend.marker flag]
            else [])
        ++ [SyncSend.snapshot flag (syncTargetVariant target.version)])

/-- C8: for a 6x70 disp-and-inventory sync delivered to an occupied
target slot of a game, when the sender is a pre-v1 variant and the
target is v1 or later, the handler first sends the target the
synthesized end-of-state marker and then the snapshot transcoded to the
target's wire variant; in every other sender/target pairing (in
particular both pre-v1 or both v1-or-later) no marker is synthesized and
only the transcoded snapshot is forwarded. -/
theorem syncDispInventory_marker (l : Lobby) (senderV : Version) (flag : Nat)
    (anyLoading : Bool) (target : LClient)
    (hg : l.isGame = true) (hf : flag < l.maxClients)
    (ht : l.clients.getD flag none = some target) :
    (isPreV1 senderV = true → isPreV1 target.version = false →
      onSyncJoiningPlayerDispAndInventory l senderV true flag anyLoading
        = .ok [SyncSend.marker flag,
               SyncSend.snapshot flag (syncTargetVariant target.version)]) ∧
    (¬(isPreV1 senderV = true ∧ isPreV1 target.version = false) →
      onSyncJoiningPlayerDispAndInventory l senderV true flag anyLoading
        = .ok [SyncSend.snapshot flag (syncTargetVariant target.version)]) := by
  have hred : onSyncJoiningPlayerDispAndInventory l senderV true flag anyLoading
      = .ok ((if isPreV1 senderV ∧ ¬isPreV1 target.version then [SyncSend.marker flag]
              else [])
          ++ [SyncSend.snapshot flag (syncTargetVariant target.version)]) := by
    unfold onSyncJoiningPlayerDispAndInventory getSyncTarget
    rw [if_neg (show ¬(¬(true : Bool) = true) by simp),
      if_pos (show l.isGame = true ∧ ((true : Bool) = true ∨ anyLoading = true) ∧
        flag < l.maxClients from ⟨hg, Or.inl rfl, hf⟩), ht]
  constructor
  · intro hs htg
    rw [hred, if_pos (show isPreV1 senderV = true ∧ ¬isPreV1 target.version = true by
      simp [hs, htg])]
    rfl
  · intro hcond
    rw [hred, if_neg (show ¬(isPreV1 senderV = true ∧ ¬isPreV1 target.version = true) by
      simpa using hcond)]
    rfl

/-- C8 (witness): a DC NTE (pre-v1) sender syncing to a v1 target gets
the marker first; a DC NTE sender syncing to a DC NTE target does not. -/
theorem syncDispInventory_marker_witness :
    onSyncJoiningPlayerDispAndInventory
      ⟨true, Version.DC_V1, 0, 4,
        [some ⟨Version.DC_V1, 0, false⟩, some ⟨Version.DC_NTE, 0, false⟩, none, none],
        [], [0x10000, 0x20000], 0x800000, DropMode.CLIENT⟩
      Version.DC_NTE true 0 true
      = .ok [SyncSend.marker 0, SyncSend.snapshot 0 WireVariant.DCPC] ∧
    onSyncJoiningPlayerDispAndInventory
      ⟨true, Version.DC_V1, 0, 4,
        [some ⟨Version.DC_NTE, 0, false⟩, some ⟨Version.DC_NTE, 0, false⟩, none, none],
        [], [0x10000, 0x20000], 0x800000, DropMode.CLIENT⟩
      Version.DC_NTE true 0 true
      = .ok [SyncSend.snapshot 0 WireVariant.DCNTE] := by
  constructor
  · exact (syncDispInventory_marker
      ⟨true, Version.DC_V1, 0, 4,
        [some ⟨Version.DC_V1, 0, false⟩, some ⟨Version.DC_NTE, 0, false⟩, none, none],
        [], [0x10000, 0x20000], 0x800000, DropMode.CLIENT⟩
      Version.DC_NTE 0 true ⟨Version.DC_V1, 0, false⟩
      (by decide) (by decide) (by decide)).1 (by decide) (by decide)
  · exact (syncDispInventory_marker
      ⟨true, Version.DC_V1, 0, 4,
        [some ⟨Version.DC_NTE, 0, false⟩, some ⟨Version.DC_NTE, 0, false⟩, none, none],
        [], [0x10000, 0x20000], 0x800000, DropMode.CLIENT⟩
      Version.DC_NTE 0 true ⟨Version.DC_NTE, 0, false⟩
      (by decide) (by decide) (by decide)).2 (by decide)

/-! ## Server-side drop generation (`SERVER_SHARED` / `SERVER_DUPLICATE`) -/

/-- The `SERVER_DUPLICATE` loop in `on_entity_drop_item_request`
(`src/ItemData.hh`): walk the client slots; for every occupied slot
whose player is on the drop's floor (every occupied slot for a box
drop), mint a fresh ID from the server range (`generate_item_id(0xFF)`),
place a copy of the generated item with visibility mask
`1 << lc->lobby_client_id`, and send the drop to that client.  Returns
the updated lobby and the `(slot, minted id)` list in loop order. -/
def dupGo (item : InvItem) (isBox : Bool) (floor : Nat) (x z : Int) :
    Nat → List (Option LClient) → Lobby → Lobby × List (Nat × Nat)
  | _, [], l => (l, [])
  | slot, oc :: rest, l =>
    match oc with
    | some lc =>
      if isBox ∨ lc.floor = floor then
        let p := l.generateItemId 0xFF
        let l2 := p.2.addItem floor ⟨p.1, item.kind, item.count⟩ x z (1 <<< slot)
        let r := dupGo item isBox floor x z (slot + 1) rest l2
        (r.1, (slot, p.1) :: r.2)
      else dupGo item isBox floor x z (slot + 1) rest l
    | none => dupGo item isBox floor x z (slot + 1) rest l

/-- The outcome of the `SERVER_SHARED`/`SERVER_DUPLICATE` branch. -/
inductive ServerDropResult
  | noItem
  | duplicated (evs : List (Nat × Nat))
  | shared (id : Nat)
deriving DecidableEq, Repr

/-- The `SERVER_SHARED`/`SERVER_DUPLICATE` case of the drop-mode switch
inside `should_drop` (`src/ItemData.hh`): when `generate_item` produced
nothing, no item is created; under `SERVER_DUPLICATE` run the
per-client loop; under `SERVER_SHARED` mint one server-range ID and
place a single item with full visibility mask `0x00F`. -/
def serverDropSharedOrDup (l : Lobby) (isBox : Bool) (floor : Nat) (x z : Int) :
    Option InvItem → Lobby × ServerDropResult
  | none => (l, .noItem)
  | some item =>
      if l.dropMode = DropMode.SERVER_DUPLICATE then
        let r := dupGo item isBox floor x z 0 l.clients l
        (r.1, .duplicated r.2)
      else
        let p := l.generateItemId 0xFF
        (p.2.addItem floor ⟨p.1, item.kind, item.count⟩ x z 0x00F, .shared p.1)

/-- The slots the `SERVER_DUPLICATE` loop creates an item for, in loop
order: occupied slots on the drop's floor, or all occupied slots for a
box drop. -/
def eligSlots (isBox : Bool) (floor : Nat) : Nat → List (Option LClient) → List Nat
  | _, [] => []
  | slot, oc :: rest =>
    match oc with
    | some lc =>
        if isBox ∨ lc.floor = floor then slot :: eligSlots isBox floor (slot + 1) rest
        else eligSlots isBox floor (slot + 1) rest
    | none => eligSlots isBox floor (slot + 1) rest

/-- The floor items the `SERVER_DUPLICATE` loop creates: consecutive
server-range IDs starting at `base`, one per eligible slot, each with
single-bit visibility. -/
def dupItems (item : InvItem) (floor : Nat) (x z : Int) :
    Nat → List Nat → List FloorItem
  | _, [] => []
  | base, s :: rest =>
      ⟨⟨base, item.kind, item.count⟩, floor, x, z, 1 <<< s⟩ ::
        dupItems item floor x z (base + 1) rest

/-- The `(slot, minted id)` pairs of the `SERVER_DUPLICATE` loop. -/
def dupEvs : Nat → List Nat → List (Nat × Nat)
  | _, [] => []
  | base, s :: rest => (s, base) :: dupEvs (base + 1) rest

theorem dupGo_spec (item : InvItem) (isBox : Bool) (floor : Nat) (x z : Int)
    (cls : List (Option LClient)) (slot : Nat) (l : Lobby) :
    dupGo item isBox floor x z slot cls l =
      ({ l with
          floorItems := l.floorItems ++
            dupItems item floor x z l.nextServerItemId (eligSlots isBox floor slot cls),
          nextServerItemId :=
            l.nextServerItemId + (eligSlots isBox floor slot cls).length },
       dupEvs l.nextServerItemId (eligSlots isBox floor slot cls)) := by
  induction cls generalizing slot l with
  | nil => simp [dupGo, eligSlots, dupItems, dupEvs]
  | cons oc rest ih =>
      cases oc with
      | none => simp [dupGo, eligSlots, ih]
      | some lc =>
          by_cases hel : isBox = true ∨ lc.floor = floor
          · simp only [dupGo, eligSlots, if_pos hel, dupItems, dupEvs,
              Lobby.generateItemId, Lobby.addItem, Lobby.addFloorItem]
            rw [if_neg (show ¬((0xFF : Nat) < 12) by decide)]
            rw [ih]
            simp [List.append_assoc, Nat.add_assoc, Nat.add_comm 1]
          · simp only [dupGo, eligSlots, if_neg hel]
            exact ih (slot + 1) l

theorem eligSlots_mem (isBox : Bool) (floor : Nat) (cls : List (Option LClient))
    (slot0 s : Nat) :
    s ∈ eligSlots isBox floor slot0 cls ↔
      (∃ j lc, j < cls.length ∧ s = slot0 + j ∧ cls.getD j none = some lc ∧
        (isBox = true ∨ lc.floor = floor)) := by
  induction cls generalizing slot0 with
  | nil => simp [eligSlots]
  | cons oc rest ih =>
      cases oc with
      | none =>
          rw [show eligSlots isBox floor slot0 (none :: rest)
              = eligSlots isBox floor (slot0 + 1) rest from rfl, ih]
          constructor
          · rintro ⟨j, lc, hj, hs, hget, hfl⟩
            exact ⟨j + 1, lc, by simpa using hj, by omega, by simpa using hget, hfl⟩
          · rintro ⟨j, lc, hj, hs, hget, hfl⟩
            cases j with
            | zero => simp at hget
            | succ j =>
                exact ⟨j, lc, by simpa using hj, by omega, by simpa using hget, hfl⟩
      | some lc0 =>
          by_cases hel : isBox = true ∨ lc0.floor = floor
          · rw [show eligSlots isBox floor slot0 (some lc0 :: rest)
                = if isBox = true ∨ lc0.floor = floor then
                    slot0 :: eligSlots isBox floor (slot0 + 1) rest
                  else eligSlots isBox floor (slot0 + 1) rest from rfl,
              if_pos hel, List.mem_cons, ih]
            constructor
            · rintro (rfl | ⟨j, lc, hj, hs, hget, hfl⟩)
              · exact ⟨0, lc0, by simp, by omega, by simp, hel⟩
              · exact ⟨j + 1, lc, by simpa using hj, by omega, by simpa using hget, hfl⟩
            · rintro ⟨j, lc, hj, hs, hget, hfl⟩
              cases j with
              | zero => exact Or.inl (by omega)
              | succ j =>
                  exact Or.inr ⟨j, lc, by simpa using hj, by omega,
                    by simpa using hget, hfl⟩
          · rw [show eligSlots isBox floor slot0 (some lc0 :: rest)
                = if isBox = true ∨ lc0.floor = floor then
                    slot0 :: eligSlots isBox floor (slot0 + 1) rest
                  else eligSlots isBox floor (slot0 + 1) rest from rfl,
              if_neg hel, ih]
            constructor
            · rintro ⟨j, lc, hj, hs, hget, hfl⟩
              exact ⟨j + 1, lc, by simpa using hj, by omega, by simpa using hget, hfl⟩
            · rintro ⟨j, lc, hj, hs, hget, hfl⟩
              cases j with
              | zero =>
                  rw [List.getD_cons_zero] at hget
                  cases Option.some.inj hget
                  exact absurd hfl hel
              | succ j =>
                  exact ⟨j, lc, by simpa using hj, by omega, by simpa using hget, hfl⟩

/-- C4: under `SERVER_DUPLICATE`, a single entity-drop request that
produced an item creates one floor item per eligible participant —
the eligible slots being exactly the occupied slots whose player is on
the drop's floor, or every occupied slot for a box drop — with
consecutive IDs freshly minted from the server progression (the one
`generate_item_id(0xFF)` addresses) and visibility mask exactly
`1 << slot`; under `SERVER_SHARED` exactly one floor item is created,
with one server-range ID and full visibility mask `0x00F`. -/
theorem serverDrop_shared_and_duplicate (l : Lobby) (item : InvItem) (isBox : Bool)
    (floor : Nat) (x z : Int) :
    (l.dropMode = DropMode.SERVER_DUPLICATE →
      serverDropSharedOrDup l isBox floor x z (some item) =
        ({ l with
            floorItems := l.floorItems ++
              dupItems item floor x z l.nextServerItemId
                (eligSlots isBox floor 0 l.clients),
            nextServerItemId :=
              l.nextServerItemId + (eligSlots isBox floor 0 l.clients).length },
         .duplicated (dupEvs l.nextServerItemId (eligSlots isBox floor 0 l.clients))) ∧
      (∀ s, s ∈ eligSlots isBox floor 0 l.clients ↔
        (∃ lc, s < l.clients.length ∧ l.clients.getD s none = some lc ∧
          (isBox = true ∨ lc.floor = floor)))) ∧
    (l.dropMode = DropMode.SERVER_SHARED →
      serverDropSharedOrDup l isBox floor x z (some item) =
        ({ l with
            floorItems := l.floorItems ++
              [⟨⟨l.nextServerItemId, item.kind, item.count⟩, floor, x, z, 0x00F⟩],
            nextServerItemId := l.nextServerItemId + 1 },
         .shared l.nextServerItemId)) := by
  constructor
  · intro hmode
    constructor
    · simp only [serverDropSharedOrDup]
      rw [if_pos hmode, dupGo_spec]
    · intro s
      rw [eligSlots_mem]
      constructor
      · rintro ⟨j, lc, hj, hs, hget, hfl⟩
        exact ⟨lc, by omega, by rw [show s = j by omega]; exact hget, hfl⟩
      · rintro ⟨lc, hs, hget, hfl⟩
        exact ⟨s, lc, hs, by omega, hget, hfl⟩
  · intro hmode
    simp only [serverDropSharedOrDup]
    rw [if_neg (show ¬(l.dropMode = DropMode.SERVER_DUPLICATE) by
      rw [hmode]; exact fun h => DropMode.noConfusion h)]
    simp only [Lobby.generateItemId, Lobby.addItem, Lobby.addFloorItem]
    rw [if_neg (show ¬((0xFF : Nat) < 12) by decide)]

/-- C4 (witness): four participants on floor 2, an enemy drop on floor
2 under `SERVER_DUPLICATE`: four items are created with consecutive
server-range IDs and visibility masks 1, 2, 4, 8. -/
theorem serverDrop_shared_and_duplicate_witness :
    serverDropSharedOrDup
      ⟨true, Version.BB_V4, 0, 4,
        [some ⟨Version.BB_V4, 2, false⟩, some ⟨Version.BB_V4, 2, false⟩,
         some ⟨Version.BB_V4, 2, false⟩, some ⟨Version.BB_V4, 2, false⟩],
        [], [0x10000, 0x20000, 0x30000, 0x40000], 0x810000, DropMode.SERVER_DUPLICATE⟩
      false 2 10 20 (some ⟨0xFFFFFFFF, 1, 1⟩)
      = (⟨true, Version.BB_V4, 0, 4,
          [some ⟨Version.BB_V4, 2, false⟩, some ⟨Version.BB_V4, 2, false⟩,
           some ⟨Version.BB_V4, 2, false⟩, some ⟨Version.BB_V4, 2, false⟩],
          [⟨⟨0x810000, 1, 1⟩, 2, 10, 20, 1⟩, ⟨⟨0x810001, 1, 1⟩, 2, 10, 20, 2⟩,
           ⟨⟨0x810002, 1, 1⟩, 2, 10, 20, 4⟩, ⟨⟨0x810003, 1, 1⟩, 2, 10, 20, 8⟩],
          [0x10000, 0x20000, 0x30000, 0x40000], 0x810004, DropMode.SERVER_DUPLICATE⟩,
         .duplicated [(0, 0x810000), (1, 0x810001), (2, 0x810002), (3, 0x810003)]) := by
  have h := (serverDrop_shared_and_duplicate
    ⟨true, Version.BB_V4, 0, 4,
      [some ⟨Version.BB_V4, 2, false⟩, some ⟨Version.BB_V4, 2, false⟩,
       some ⟨Version.BB_V4, 2, false⟩, some ⟨Version.BB_V4, 2, false⟩],
      [], [0x10000, 0x20000, 0x30000, 0x40000], 0x810000, DropMode.SERVER_DUPLICATE⟩
    ⟨0xFFFFFFFF, 1, 1⟩ false 2 10 20).1 (by decide)
  exact h.1.trans (by decide)

/-! ## The split-stack handler (`on_drop_partial_stack_bb`) and the
delete-inventory-item handler (`on_destroy_inventory_item`) -/

/-- Outcome of `on_drop_partial_stack_bb`. -/
inductive SplitResult
  | forwardedNonBB
  | ignored
  | handled (l2 : Lobby) (inv2 : Inventory) (newFloorItem : FloorItem)
deriving DecidableEq, Repr

/-- Last step of the split: add the (re-identified) removed portion back
to the inventory — `p->add_item` countering the client's imminent 6x29 —
then place the portion on the floor with full visibility. -/
def splitFinish (l1 : Lobby) (item2 : InvItem) (floor : Nat) (x z : Int) :
    Except String Inventory → Except String SplitResult
  | .error e => .error e
  | .ok inv2 =>
      .ok (.handled (l1.addItem floor item2 x z 0x00F) inv2 ⟨item2, floor, x, z, 0x00F⟩)

/-- The part of `on_drop_partial_stack_bb` after `p->remove_item`
returned `(item, inv1)`: when a stack was split the original item still
exists, which `remove_item` signals by returning ID `0xFFFFFFFF` — in
that case mint a new ID from the requester's progression
(`l->generate_item_id(c->lobby_client_id)`); re-add the portion to the
inventory, then place it on the floor. -/
def splitWithRemoved (l : Lobby) (senderSlot floor : Nat) (x z : Int)
    (item : InvItem) (inv1 : Inventory) : Except String SplitResult :=
  let pr :=
    if item.itemId = 0xFFFFFFFF then
      ((⟨(l.generateItemId senderSlot).1, item.kind, item.count⟩ : InvItem),
        (l.generateItemId senderSlot).2)
    else (item, l)
  splitFinish pr.2 pr.1 floor x z (inv1.addItem pr.1)

/-- `on_drop_partial_stack_bb` (`src/ItemData.hh`): on a non-BB game the
6xC3 is forwarded; on BB, guard on the lobby being a game and the
command's client ID matching the sender, remove the requested amount
from the inventory stack, and continue in `splitWithRemoved`. -/
def onDropPartialStackBB (l : Lobby) (senderSlot : Nat) (inv : Inventory)
    (cmdClientId itemId amount floor : Nat) (x z : Int) : Except String SplitResult :=
  if l.baseVersion = Version.BB_V4 then
    if ¬l.isGame ∨ cmdClientId ≠ senderSlot then .ok .ignored
    else
      match inv.removeItem itemId amount with
      | .error e => .error e
      | .ok r => splitWithRemoved l senderSlot floor x z r.1 r.2
  else .ok .forwardedNonBB

/-- `on_destroy_inventory_item` (`src/ItemData.hh`): guard on the lobby
being a game and the client ID matching the sender, then remove exactly
the commanded amount from the inventory (and forward the command). -/
def onDestroyInventoryItem (l : Lobby) (senderSlot : Nat) (inv : Inventory)
    (cmdClientId itemId amount : Nat) : Except String (Option (InvItem × Inventory)) :=
  if ¬l.isGame then .ok none
  else if cmdClientId ≠ senderSlot then .ok none
  else
    match inv.removeItem itemId amount with
    | .error e => .error e
    | .ok r => .ok (some r)

theorem removeInvItem_split_spec (id amount : Nat) (pre post : List InvItem) (st : InvItem)
    (hid : st.itemId = id)
    (hpre : ∀ e ∈ pre, e.itemId ≠ id)
    (ha0 : amount ≠ 0) (hlt : amount < st.count) :
    removeInvItem id amount (pre ++ st :: post)
      = some (⟨0xFFFFFFFF, st.kind, amount⟩,
          pre ++ ⟨st.itemId, st.kind, st.count - amount⟩ :: post) := by
  induction pre with
  | nil =>
      simp only [List.nil_append, removeInvItem]
      rw [if_pos hid, if_pos ⟨ha0, hlt⟩]
  | cons e pre ih =>
      simp only [List.cons_append, removeInvItem]
      rw [if_neg (hpre e (List.mem_cons_self e pre))]
      simp only [List.append_eq]
      rw [ih (fun e' he' => hpre e' (List.mem_cons_of_mem _ he'))]
      rfl

theorem combineInvItem_spec (it : InvItem) (pre post : List InvItem) (st : InvItem)
    (hk : st.kind = it.kind)
    (hpre : ∀ e ∈ pre, e.kind ≠ it.kind) :
    combineInvItem it (pre ++ st :: post)
      = pre ++ ⟨st.itemId, st.kind, st.count + it.count⟩ :: post := by
  induction pre with
  | nil =>
      simp only [List.nil_append, combineInvItem]
      rw [if_pos hk]
  | cons e pre ih =>
      simp only [List.cons_append, combineInvItem]
      rw [if_neg (hpre e (List.mem_cons_self e pre))]
      simp only [List.append_eq]
      rw [ih (fun e' he' => hpre e' (List.mem_cons_of_mem _ he'))]

/-- C5: on a BB game, for a 6xC3 split of `amount` out of a stack of
`st.count` (with `0 < amount < st.count`): the inventory removal splits
the stack (leaving `st.count - amount`) and returns the portion with the
sentinel ID `0xFFFFFFFF`; the handler then mints a fresh item ID from
the requester's progression (the counter advances by one), re-adds the
portion so the inventory stack is back at its original count under its
original ID, and places a new floor stack of `amount` carrying the fresh
ID with full visibility; the subsequent 6x29 delete-inventory-item for
the same amount removes exactly that amount again, leaving the stack at
its post-split count. -/
theorem splitStack_bb (l : Lobby) (senderSlot : Nat) (pre post : List InvItem)
    (st : InvItem) (itemId amount floor : Nat) (x z : Int)
    (hbb : l.baseVersion = Version.BB_V4)
    (hg : l.isGame = true)
    (hslot : senderSlot < 12)
    (hid : st.itemId = itemId)
    (hpreId : ∀ e ∈ pre, e.itemId ≠ itemId)
    (hpreKind : ∀ e ∈ pre, e.kind ≠ st.kind)
    (ha0 : amount ≠ 0) (hlt : amount < st.count) :
    (⟨pre ++ st :: post⟩ : Inventory).removeItem itemId amount
      = .ok (⟨0xFFFFFFFF, st.kind, amount⟩,
          ⟨pre ++ ⟨st.itemId, st.kind, st.count - amount⟩ :: post⟩) ∧
    onDropPartialStackBB l senderSlot ⟨pre ++ st :: post⟩ senderSlot itemId amount floor x z
      = .ok (.handled
          ({ l with
              nextClientItemId := l.nextClientItemId.set senderSlot
                (l.nextClientItemId.getD senderSlot 0 + 1),
              floorItems := l.floorItems ++
                [⟨⟨l.nextClientItemId.getD senderSlot 0, st.kind, amount⟩,
                  floor, x, z, 0x00F⟩] })
          ⟨pre ++ st :: post⟩
          ⟨⟨l.nextClientItemId.getD senderSlot 0, st.kind, amount⟩, floor, x, z, 0x00F⟩) ∧
    onDestroyInventoryItem
      ({ l with
          nextClientItemId := l.nextClientItemId.set senderSlot
            (l.nextClientItemId.getD senderSlot 0 + 1),
          floorItems := l.floorItems ++
            [⟨⟨l.nextClientItemId.getD senderSlot 0, st.kind, amount⟩, floor, x, z, 0x00F⟩] })
      senderSlot ⟨pre ++ st :: post⟩ senderSlot itemId amount
      = .ok (some (⟨0xFFFFFFFF, st.kind, amount⟩,
          ⟨pre ++ ⟨st.itemId, st.kind, st.count - amount⟩ :: post⟩)) := by
  have hsub : st.count - amount + amount = st.count := Nat.sub_add_cancel (Nat.le_of_lt hlt)
  have hremEq : (⟨pre ++ st :: post⟩ : Inventory).removeItem itemId amount
      = .ok (⟨0xFFFFFFFF, st.kind, amount⟩,
          ⟨pre ++ ⟨st.itemId, st.kind, st.count - amount⟩ :: post⟩) := by
    unfold Inventory.removeItem
    rw [removeInvItem_split_spec itemId amount pre post st hid hpreId ha0 hlt]
  have haddEq : (⟨pre ++ ⟨st.itemId, st.kind, st.count - amount⟩ :: post⟩ : Inventory).addItem
        ⟨l.nextClientItemId.getD senderSlot 0, st.kind, amount⟩
      = .ok ⟨pre ++ st :: post⟩ := by
    unfold Inventory.addItem
    rw [if_pos]
    · rw [combineInvItem_spec ⟨l.nextClientItemId.getD senderSlot 0, st.kind, amount⟩
        pre post ⟨st.itemId, st.kind, st.count - amount⟩ rfl hpreKind]
      rw [show ((⟨st.itemId, st.kind, st.count - amount + amount⟩ : InvItem)
          = st) by rw [hsub]]
    · refine List.any_eq_true.mpr ⟨⟨st.itemId, st.kind, st.count - amount⟩, ?_, by simp⟩
      exact List.mem_append_right _ (List.mem_cons_self _ _)
  refine ⟨hremEq, ?_, ?_⟩
  · unfold onDropPartialStackBB
    rw [if_pos hbb,
      if_neg (show ¬(¬l.isGame = true ∨ senderSlot ≠ senderSlot) by simp [hg]), hremEq]
    show splitWithRemoved l senderSlot floor x z
        ⟨0xFFFFFFFF, st.kind, amount⟩
        ⟨pre ++ ⟨st.itemId, st.kind, st.count - amount⟩ :: post⟩ = _
    unfold splitWithRemoved
    rw [if_pos (show ((⟨0xFFFFFFFF, st.kind, amount⟩ : InvItem).itemId = 0xFFFFFFFF)
      from rfl)]
    simp only [Lobby.generateItemId]
    rw [if_pos hslot]
    show splitFinish _ _ floor x z
        ((⟨pre ++ ⟨st.itemId, st.kind, st.count - amount⟩ :: post⟩ : Inventory).addItem
          ⟨l.nextClientItemId.getD senderSlot 0, st.kind, amount⟩) = _
    rw [haddEq]
    rfl
  · unfold onDestroyInventoryItem
    rw [if_neg (show ¬(¬(({ l with
          nextClientItemId := l.nextClientItemId.set senderSlot
            (l.nextClientItemId.getD senderSlot 0 + 1),
          floorItems := l.floorItems ++
            [⟨⟨l.nextClientItemId.getD senderSlot 0, st.kind, amount⟩, floor, x, z,
              0x00F⟩] } : Lobby).isGame = true)) by simp [hg]),
      if_neg (show ¬(senderSlot ≠ senderSlot) by simp), hremEq]

/-- C5 (witness): the specification's concrete scenario — a stack of 10
split by 3 on a BB game: the inventory goes 10 → 7 → 10 across the
split (the floor stack of 3 getting the freshly minted ID 0x10000), and
the subsequent 6x29 for 3 leaves the stack at 7. -/
theorem splitStack_bb_witness :
    onDropPartialStackBB
      ⟨true, Version.BB_V4, 0, 4,
        [some ⟨Version.BB_V4, 1, false⟩, none, none, none],
        [], [0x10000, 0x20000], 0x800000, DropMode.SERVER_SHARED⟩
      0 ⟨[⟨0xAB0005, 9, 10⟩]⟩ 0 0xAB0005 3 1 5 6
      = .ok (.handled
          ⟨true, Version.BB_V4, 0, 4,
            [some ⟨Version.BB_V4, 1, false⟩, none, none, none],
            [⟨⟨0x10000, 9, 3⟩, 1, 5, 6, 0x00F⟩], [0x10001, 0x20000], 0x800000,
            DropMode.SERVER_SHARED⟩
          ⟨[⟨0xAB0005, 9, 10⟩]⟩ ⟨⟨0x10000, 9, 3⟩, 1, 5, 6, 0x00F⟩) ∧
    onDestroyInventoryItem
      ⟨true, Version.BB_V4, 0, 4,
        [some ⟨Version.BB_V4, 1, false⟩, none, none, none],
        [⟨⟨0x10000, 9, 3⟩, 1, 5, 6, 0x00F⟩], [0x10001, 0x20000], 0x800000,
        DropMode.SERVER_SHARED⟩
      0 ⟨[⟨0xAB0005, 9, 10⟩]⟩ 0 0xAB0005 3
      = .ok (some (⟨0xFFFFFFFF, 9, 3⟩, ⟨[⟨0xAB0005, 9, 7⟩]⟩)) := by
  have h := splitStack_bb
    ⟨true, Version.BB_V4, 0, 4,
      [some ⟨Version.BB_V4, 1, false⟩, none, none, none],
      [], [0x10000, 0x20000], 0x800000, DropMode.SERVER_SHARED⟩
    0 [] [] ⟨0xAB0005, 9, 10⟩ 0xAB0005 3 1 5 6
    (by decide) (by decide) (by decide) (by decide)
    (by intro e he; exact absurd he (List.not_mem_nil e))
    (by intro e he; exact absurd he (List.not_mem_nil e))
    (by decide) (by decide)
  exact ⟨h.2.1.trans (by rfl), h.2.2.trans (by rfl)⟩

end Newserv
